import Mathlib

/-!
Verification development for the smart-contracts deployment tool.

This file gives a shallow embedding, in Lean 4, of the contract-verification
subsystem of the repository: the bytecode metadata decoder, the
security/functionality analyzer and verdict logic of `VerificationManager`
(verify.js), and the submit/poll protocol and constructor-argument encoder of
`ContractVerifier.js`.  JavaScript runtime behaviour (Node `Buffer.from(_, 'hex')`,
`String.prototype.slice/includes/replace/toLowerCase`, truthiness, template
strings) is modelled explicitly by small helper functions.  External effects
(RPC calls, HTTP submissions, thrown exceptions from `ethers`) are modelled as
explicit inputs: an `Except` value for a call that can throw, and a
`Nat → Response` stream for the successive answers of the explorer API.

The third-party `cbor` package's `decodeFirstSync` is modelled by a
definite-length CBOR decoder covering the major types the bytecode trailer
uses (unsigned/negative integers, byte strings, ASCII text strings, arrays,
maps, and the simple values false/true/null/undefined); length encodings and
payloads outside this subset are treated as decode failures.  JavaScript
numbers are modelled as exact rationals (`ℚ`) rather than IEEE doubles; every
concrete value appearing in the theorems below is exactly representable as a
double, so the modelling is faithful on those inputs.
-/

/-- Hexadecimal value of one character, or `none` when the character is not a
hex digit.  Mirrors Node's per-character hex parsing. -/
def hexVal (c : Char) : Option Nat :=
  if 48 ≤ c.toNat ∧ c.toNat ≤ 57 then some (c.toNat - 48)
  else if 97 ≤ c.toNat ∧ c.toNat ≤ 102 then some (c.toNat - 87)
  else if 65 ≤ c.toNat ∧ c.toNat ≤ 70 then some (c.toNat - 55)
  else none

/-- Model of Node's `Buffer.from(s, 'hex')`: decode pairs of hex characters
into bytes, stopping at the first incomplete or invalid pair. -/
def bufferFromHex : List Char → List Nat
  | c1 :: c2 :: rest =>
    match hexVal c1, hexVal c2 with
    | some h, some l => (16 * h + l) :: bufferFromHex rest
    | _, _ => []
  | _ => []

/-- Is the character one of `0-9`, `a-f`, `A-F`? -/
def isHexChar (c : Char) : Bool :=
  decide ((48 ≤ c.toNat ∧ c.toNat ≤ 57) ∨ (97 ≤ c.toNat ∧ c.toNat ≤ 102) ∨
    (65 ≤ c.toNat ∧ c.toNat ≤ 70))

/-- ASCII model of JavaScript `String.prototype.toLowerCase` on a single
character: the letters `A`-`Z` are shifted down by 32, everything else is
kept.  All bytecode strings handled by the analyzer are ASCII hex. -/
def jsLowerChar (c : Char) : Char :=
  if 65 ≤ c.toNat ∧ c.toNat ≤ 90 then Char.ofNat (c.toNat + 32) else c

/-- ASCII model of JavaScript `String.prototype.toLowerCase`. -/
def jsToLower (s : String) : String :=
  ⟨s.data.map jsLowerChar⟩

/-- Does the pattern occur as a contiguous substring of the haystack?  Models
JavaScript `String.prototype.includes`. -/
def strIncludesAux : List Char → List Char → Bool
  | [], pat => pat.isEmpty
  | c :: t, pat => pat.isPrefixOf (c :: t) || strIncludesAux t pat

/-- JavaScript `hay.includes(pat)`. -/
def strIncludes (hay pat : String) : Bool :=
  strIncludesAux hay.data pat.data

/-- Remove the first occurrence of `pat` (replacement by the empty string),
returning `none` when `pat` does not occur. -/
def replaceFirstAux (pat : List Char) : List Char → Option (List Char)
  | [] => if pat.isEmpty then some [] else none
  | c :: t =>
    if pat.isPrefixOf (c :: t) then some ((c :: t).drop pat.length)
    else (replaceFirstAux pat t).map (c :: ·)

/-- JavaScript `s.replace(pat, '')` for a plain (non-regex) pattern string:
only the first occurrence is removed. -/
def jsReplaceFirst (s pat : String) : String :=
  match replaceFirstAux pat.data s.data with
  | some l => ⟨l⟩
  | none => s

/-- JavaScript `code.replace(/^0x/, '')`. -/
def strip0x (s : String) : String :=
  if s.data.take 2 = ['0', 'x'] then ⟨s.data.drop 2⟩ else s

/-- CBOR data items, as produced by the `cbor` package for the definite-length
subset used by Solidity metadata trailers.  A byte string decodes to a Node
`Buffer` (`bytes`), a text string to a JavaScript string, a map to a
JavaScript object (string keys) or `Map` (other keys). -/
inductive CBOR where
  | int (n : Int)
  | bytes (bs : List Nat)
  | text (s : String)
  | arr (xs : List CBOR)
  | map (kvs : List (CBOR × CBOR))
  | bool (b : Bool)
  | nullV
  | undef
deriving Repr

/-- Decode a CBOR length/argument header: initial byte plus extension bytes.
Returns the argument value and the remaining input.  Indefinite lengths and
64-bit arguments are outside the modelled subset and fail. -/
def cborHeaderArg (b : Nat) (rest : List Nat) : Option (Nat × List Nat) :=
  let ai := b % 32
  if ai < 24 then some (ai, rest)
  else if ai = 24 then
    match rest with
    | x :: r => some (x, r)
    | [] => none
  else if ai = 25 then
    match rest with
    | x :: y :: r => some (x * 256 + y, r)
    | _ => none
  else if ai = 26 then
    match rest with
    | x :: y :: z :: w :: r => some (((x * 256 + y) * 256 + z) * 256 + w, r)
    | _ => none
  else none

/-- ASCII-only UTF-8 text decoding: bytes above 127 are outside the modelled
subset. -/
def asciiDecode (bs : List Nat) : Option String :=
  if bs.all (· < 128) then some ⟨bs.map Char.ofNat⟩ else none

/-- Group a flat list into consecutive pairs. -/
def pairUp : List CBOR → List (CBOR × CBOR)
  | k :: v :: rest => (k, v) :: pairUp rest
  | _ => []

mutual

/-- Decode one CBOR item from the byte list, fuel-bounded.  Returns the item
and the remaining bytes, or `none` on malformed input. -/
def cborItem : Nat → List Nat → Option (CBOR × List Nat)
  | 0, _ => none
  | _ + 1, [] => none
  | fuel + 1, b :: rest =>
    let mt := b / 32
    if mt = 0 then
      (cborHeaderArg b rest).map fun p => (.int p.1, p.2)
    else if mt = 1 then
      (cborHeaderArg b rest).map fun p => (.int (-1 - (p.1 : Int)), p.2)
    else if mt = 2 then
      match cborHeaderArg b rest with
      | some (n, r) => if n ≤ r.length then some (.bytes (r.take n), r.drop n) else none
      | none => none
    else if mt = 3 then
      match cborHeaderArg b rest with
      | some (n, r) =>
        if n ≤ r.length then
          match asciiDecode (r.take n) with
          | some s => some (.text s, r.drop n)
          | none => none
        else none
      | none => none
    else if mt = 4 then
      match cborHeaderArg b rest with
      | some (n, r) =>
        match cborSeq fuel n r with
        | some (xs, r2) => some (.arr xs, r2)
        | none => none
      | none => none
    else if mt = 5 then
      match cborHeaderArg b rest with
      | some (n, r) =>
        match cborSeq fuel (2 * n) r with
        | some (xs, r2) => some (.map (pairUp xs), r2)
        | none => none
      | none => none
    else if mt = 7 then
      let ai := b % 32
      if ai = 20 then some (.bool false, rest)
      else if ai = 21 then some (.bool true, rest)
      else if ai = 22 then some (.nullV, rest)
      else if ai = 23 then some (.undef, rest)
      else none
    else none

/-- Decode a fixed count of consecutive CBOR items. -/
def cborSeq : Nat → Nat → List Nat → Option (List CBOR × List Nat)
  | _, 0, bs => some ([], bs)
  | 0, _ + 1, _ => none
  | fuel + 1, n + 1, bs =>
    match cborItem fuel bs with
    | some (v, r) =>
      match cborSeq fuel n r with
      | some (xs, r2) => some (v :: xs, r2)
      | none => none
    | none => none

end

/-- Model of `cbor.decodeFirstSync`: decode the first CBOR item of the byte
list, `none` standing for a thrown decode error (including empty input). -/
def cborDecodeFirst (bs : List Nat) : Option CBOR :=
  (cborItem (2 * bs.length + 2) bs).map (·.1)

/-- JavaScript truthiness of a decoded CBOR value: `0`, the empty string,
`false`, `null` and `undefined` are falsy; every object (Buffer, array, map)
is truthy. -/
def cborTruthy : CBOR → Bool
  | .int n => n ≠ 0
  | .bytes _ => true
  | .text s => s ≠ ""
  | .arr _ => true
  | .map _ => true
  | .bool b => b
  | .nullV => false
  | .undef => false

/-- Is the CBOR value a text string? -/
def cborIsText : CBOR → Bool
  | .text _ => true
  | _ => false

/-- JavaScript property access `m[k]` on a decoded CBOR value.  The `cbor`
package decodes a CBOR map with all-text keys to a plain object (property
access works, later duplicate keys win); maps with non-text keys decode to a
JavaScript `Map`, on which dot access yields `undefined`; property access on
any non-map value also yields `undefined` (`none`). -/
def jsGet (v : CBOR) (k : String) : Option CBOR :=
  match v with
  | .map kvs =>
    if kvs.all (fun p => cborIsText p.1) then
      (kvs.reverse.find? (fun p =>
        match p.1 with
        | .text t => t == k
        | _ => false)).map (·.2)
    else none
  | _ => none

namespace VerificationManager

/-- Embeds `VerificationManager.getMetadataSectionLength`: read the last two
bytes (four hex characters) of the bytecode as a big-endian 16-bit integer
and add 2; if the trailing slice does not parse to exactly two bytes the
metadata length is 0. -/
def getMetadataSectionLength (bytecode : String) : Nat :=
  let sliceChars := bytecode.data.drop (bytecode.data.length - 4)
  let buf := bufferFromHex sliceChars
  match buf with
  | [hi, lo] => (hi * 256 + lo) + 2
  | _ => 0

/-- Embeds `VerificationManager.extractMetadata`: CBOR-decode the trailer
payload `bytecodeBuffer.slice(-metadataSectionLength, -2)`; `none` models
both the `metadataSectionLength === 0` early return and the caught decode
error.  Note the negative `Buffer.slice` indices clamp at 0, so an oversized
length field does not fail. -/
def extractMetadata (bytecode : String) : Option CBOR :=
  let buf := bufferFromHex bytecode.data
  let msl := getMetadataSectionLength bytecode
  if msl = 0 then none
  else cborDecodeFirst ((buf.take (buf.length - 2)).drop (buf.length - msl))

/-- Embeds `VerificationManager.inferCompilerVersion`: require truthy
metadata with a truthy `solc` entry that is a 3-byte Buffer, rendered as
a dotted version string. -/
def inferCompilerVersion (bytecode : String) : Option String :=
  match extractMetadata bytecode with
  | none => none
  | some metadata =>
    if !cborTruthy metadata then none
    else
      match jsGet metadata "solc" with
      | none => none
      | some solcMetadata =>
        if !cborTruthy solcMetadata then none
        else
          match solcMetadata with
          | .bytes [major, minor, patch] => some s!"{major}.{minor}.{patch}"
          | _ => none

/-- Result record of `analyzeContractSecurity`. -/
structure SecurityAnalysis where
  hasMetadata : Bool
  compilerVersion : Option String
  hasIpfsHash : Bool
  hasSelfDestruct : Bool
  size : Nat
  warnings : List String
deriving Repr, DecidableEq

/-- Warning pushed when the self-destruct heuristic fires. -/
def selfDestructWarning : String := "Contract may contain self-destruct functionality"

/-- Warning pushed when the bytecode string is longer than 49152 characters. -/
def sizeWarning : String := "Contract size is close to or exceeds deployment limit"

/-- Embeds `VerificationManager.analyzeContractSecurity`: metadata fields are
filled in when the decoded metadata is truthy; the self-destruct heuristic is
a substring scan over the lowercased bytecode; the size check compares the
string length (hex characters) against 49152. -/
def analyzeContractSecurity (bytecode : String) : SecurityAnalysis :=
  let metadata := extractMetadata bytecode
  let metaTruthy := match metadata with
    | some m => cborTruthy m
    | none => false
  let lowerBytecode := jsToLower bytecode
  let hasSD := strIncludes lowerBytecode "selfdestruct" ||
    (strIncludes lowerBytecode "ff" && strIncludes lowerBytecode "suicide")
  { hasMetadata := metaTruthy
    compilerVersion := if metaTruthy then inferCompilerVersion bytecode else none
    hasIpfsHash :=
      if metaTruthy then
        match metadata with
        | some m =>
          match jsGet m "ipfs" with
          | some v => cborTruthy v
          | none => false
        | none => false
      else false
    hasSelfDestruct := hasSD
    size := bytecode.data.length
    warnings :=
      (if hasSD then [selfDestructWarning] else []) ++
      (if bytecode.data.length > 49152 then [sizeWarning] else []) }

/-- Expected token configuration (`deploymentInfo.token`). -/
structure TokenConfig where
  name : String
  symbol : String
  decimals : Nat
  totalSupply : Nat
deriving Repr, DecidableEq

/-- Values returned by the four concurrent read calls `name()`, `symbol()`,
`decimals()`, `totalSupply()` when none of them throws. -/
structure TokenReads where
  name : String
  symbol : String
  decimals : Nat
  totalSupply : Nat
deriving Repr, DecidableEq

/-- Pad a digit list on the left with `'0'` up to the given width. -/
def padZeros (w : Nat) (ds : List Char) : List Char :=
  List.replicate (w - ds.length) '0' ++ ds

/-- Drop trailing `'0'` characters. -/
def trimTrailingZeros (ds : List Char) : List Char :=
  (ds.reverse.dropWhile (· = '0')).reverse

/-- Model of ethers v6 `formatUnits(value, decimals)` for a nonnegative
integer value: the exact decimal string, with trailing fraction zeros
trimmed but at least one fraction digit kept. -/
def formatUnits (value decimals : Nat) : String :=
  let whole := value / 10 ^ decimals
  let frac := value % 10 ^ decimals
  let fracDigits := trimTrailingZeros (padZeros decimals (Nat.repr frac).data)
  Nat.repr whole ++ "." ++ (if fracDigits.isEmpty then "0" else ⟨fracDigits⟩)

/-- Numeric value of a digit list, or `none` when a non-digit occurs or the
list is empty. -/
def digitsVal (ds : List Char) : Option Nat :=
  if ds.isEmpty then none
  else if ds.all (fun c => 48 ≤ c.toNat ∧ c.toNat ≤ 57) then
    some (ds.foldl (fun a c => a * 10 + (c.toNat - 48)) 0)
  else none

/-- Model of JavaScript `Number(s)` on plain decimal strings, as an exact
rational; `none` models `NaN` (which compares unequal to everything).
Handled forms: `""` (value 0), `digits`, `digits.digits`, `digits.`,
`.digits`. -/
def jsNumber (s : String) : Option ℚ :=
  if s = "" then some 0
  else
    match s.data.splitOn '.' with
    | [w] => (digitsVal w).map (fun n => (n : ℚ))
    | [w, f] =>
      if w.isEmpty ∧ f.isEmpty then none
      else
        match digitsVal w, digitsVal f with
        | some wn, some fn => some ((wn : ℚ) + (fn : ℚ) / (10 : ℚ) ^ f.length)
        | some wn, none => if f.isEmpty then some (wn : ℚ) else none
        | none, some fn => if w.isEmpty then some ((fn : ℚ) / (10 : ℚ) ^ f.length) else none
        | none, none => none
    | _ => none

/-- One `{actual, expected, matches}` comparison for a string field. -/
structure FieldCmpS where
  actual : String
  expected : String
  matched : Bool
deriving Repr, DecidableEq

/-- One `{actual, expected, matches}` comparison for the decimals field. -/
structure FieldCmpN where
  actual : Nat
  expected : Nat
  matched : Bool
deriving Repr, DecidableEq

/-- One `{actual, expected, matches}` comparison for the total-supply field;
the actual value is the result of `Number(formatUnits(totalSupply,
decimals).replace('.0', ''))`. -/
structure FieldCmpQ where
  actual : Option ℚ
  expected : Nat
  matched : Bool
deriving Repr, DecidableEq

/-- The per-field comparisons and aggregate flag built in the responsive
branch of `verifyContractFunctionality`. -/
structure TokenChecks where
  nameCmp : FieldCmpS
  symbolCmp : FieldCmpS
  decimalsCmp : FieldCmpN
  totalSupplyCmp : FieldCmpQ
  allMatch : Bool
deriving Repr, DecidableEq

/-- Return value of `verifyContractFunctionality`: either the two-field
record `{responsive: false, error}` from the catch branch, or the full
comparison record with `responsive: true`. -/
structure Functionality where
  responsive : Bool
  error : Option String := none
  fields : Option TokenChecks := none
deriving Repr, DecidableEq

/-- Embeds `VerificationManager.verifyContractFunctionality`.  The four
concurrent token reads are an explicit input: `Except.error e` models any of
the calls throwing with message `e` (the catch branch), `Except.ok` the case
where all four resolve. -/
def verifyContractFunctionality (calls : Except String TokenReads)
    (expectedToken : TokenConfig) : Functionality :=
  match calls with
  | .error e => { responsive := false, error := some e }
  | .ok r =>
    let tsActual := jsNumber (jsReplaceFirst (formatUnits r.totalSupply r.decimals) ".0")
    let nameCmp : FieldCmpS := ⟨r.name, expectedToken.name, r.name == expectedToken.name⟩
    let symbolCmp : FieldCmpS := ⟨r.symbol, expectedToken.symbol, r.symbol == expectedToken.symbol⟩
    let decimalsCmp : FieldCmpN := ⟨r.decimals, expectedToken.decimals, r.decimals == expectedToken.decimals⟩
    let tsCmp : FieldCmpQ :=
      ⟨tsActual, expectedToken.totalSupply,
        match tsActual with
        | some q => q == (expectedToken.totalSupply : ℚ)
        | none => false⟩
    { responsive := true
      fields := some
        { nameCmp, symbolCmp, decimalsCmp, totalSupplyCmp := tsCmp
          allMatch := nameCmp.matched && symbolCmp.matched &&
            decimalsCmp.matched && tsCmp.matched } }

/-- A dynamic JavaScript value as stored in a check's `passed` field. -/
inductive JsVal where
  | jbool (b : Bool)
  | jnull
  | jstr (s : String)
deriving Repr, DecidableEq

/-- JavaScript truthiness of a `passed` field value. -/
def jsTruthy : JsVal → Bool
  | .jbool b => b
  | .jnull => false
  | .jstr s => s ≠ ""

/-- A `{passed, message}` entry of the checks map whose `passed` field is
assigned only boolean literals in the source. -/
structure SimpleCheck where
  passed : Bool
  message : String
deriving Repr, DecidableEq

/-- The `bytecode` entry of the checks map: its `passed` field is the
JavaScript expression `hasMetadata && compilerVersion`, which evaluates to
`false`, `null`, or the version string; `details` is the security analysis. -/
structure BytecodeCheck where
  passed : JsVal
  message : String
  details : SecurityAnalysis
deriving Repr, DecidableEq

/-- The `verificationResult.checks` map; a `none` field is a key never
assigned on the taken path. -/
structure Checks where
  existence : Option SimpleCheck := none
  functionality : Option SimpleCheck := none
  bytecode : Option BytecodeCheck := none
  compiler : Option SimpleCheck := none
  errorCheck : Option SimpleCheck := none
deriving Repr, DecidableEq

/-- The `verificationResult.summary` tallies. -/
structure Summary where
  passed : Nat
  failed : Nat
  warnings : Nat
deriving Repr, DecidableEq

/-- The structured outcome of `verifyContract` (the run timestamp is
dropped: it never influences any check). -/
structure VerificationResult where
  contractAddress : String
  networkChainId : String
  success : Bool
  checks : Checks
  summary : Summary
deriving Repr, DecidableEq

/-- External effects consumed by one `verifyContract` run:
`getCode` is the provider call (which can throw), `tokenCalls` feeds
`verifyContractFunctionality`, `compilerVersionInfo` is
`deploymentInfo.compilerVersion`, and `fallbackVersion` is the value the
build-artifact/solc fallback resolution produces when the former is falsy
(that resolution only reads local files and always yields some string,
defaulting to "0.8.20"). -/
structure VerifyEnv where
  getCode : Except String String
  tokenCalls : Except String TokenReads
  compilerVersionInfo : Option String
  fallbackVersion : String
deriving Repr

/-- Renders an `Option String` the way a JavaScript template string renders
`null`. -/
def renderOptStr : Option String → String
  | some s => s
  | none => "null"

/-- The existence check recorded once deployed code was found. -/
def existenceCheck : SimpleCheck := ⟨true, "Contract exists on blockchain"⟩

/-- The full check sequence of `verifyContract` after the existence check
passed, assembled from the functionality check, the security analysis and
the compiler check.  The summary counters are accumulated exactly where the
source increments them: note the bytecode tally follows `hasMetadata` while
the recorded `passed` field is `hasMetadata && compilerVersion`. -/
def assembleChecksResult (contractAddress networkChainId : String)
    (functionalityCheck : SimpleCheck) (securityAnalysis : SecurityAnalysis)
    (compilerCheck : SimpleCheck) : VerificationResult :=
  let bytecodeCheck : BytecodeCheck :=
    { passed :=
        if securityAnalysis.hasMetadata then
          match securityAnalysis.compilerVersion with
          | some v => .jstr v
          | none => .jnull
        else .jbool false
      message :=
        if securityAnalysis.hasMetadata then
          "Valid bytecode with metadata (compiler: " ++
            renderOptStr securityAnalysis.compilerVersion ++ ")"
        else "No valid metadata found in bytecode"
      details := securityAnalysis }
  let checks : Checks :=
    { existence := some existenceCheck
      functionality := some functionalityCheck
      bytecode := some bytecodeCheck
      compiler := some compilerCheck }
  let criticalPassed := existenceCheck.passed && functionalityCheck.passed
  { contractAddress, networkChainId
    success := criticalPassed
    checks
    summary :=
      { passed := 1 + (if functionalityCheck.passed then 1 else 0) +
          (if securityAnalysis.hasMetadata then 1 else 0) +
          (if compilerCheck.passed then 1 else 0)
        failed := (if functionalityCheck.passed then 0 else 1) +
          (if securityAnalysis.hasMetadata then 0 else 1) +
          (if compilerCheck.passed then 0 else 1)
        warnings := securityAnalysis.warnings.length } }

/-- Embeds `VerificationManager.verifyContract`.  The three return paths of
the source are mirrored: the outer catch (when `getCode` throws), the early
return when no code is deployed, and the full check sequence. -/
def verifyContract (env : VerifyEnv) (contractAddress networkChainId : String)
    (token : TokenConfig) : VerificationResult :=
  match env.getCode with
  | .error msg =>
    { contractAddress, networkChainId, success := false
      checks := { errorCheck := some ⟨false, "Verification failed: " ++ msg⟩ }
      summary := ⟨0, 1, 0⟩ }
  | .ok deployedCode =>
    if deployedCode = "0x" then
      { contractAddress, networkChainId, success := false
        checks := { existence := some ⟨false, "No contract found at address"⟩ }
        summary := ⟨0, 1, 0⟩ }
    else
      let functionality := verifyContractFunctionality env.tokenCalls token
      let functionalityCheck : SimpleCheck :=
        if !functionality.responsive then
          ⟨false, "Contract not responsive: " ++ renderOptStr functionality.error⟩
        else if (functionality.fields.map TokenChecks.allMatch).getD false then
          ⟨true, "All token parameters match expected values"⟩
        else
          ⟨false, "Some token parameters do not match"⟩
      let deployedBytecode := strip0x deployedCode
      let securityAnalysis := analyzeContractSecurity deployedBytecode
      let expectedCompilerVersion :=
        match env.compilerVersionInfo with
        | some v => if v = "" then env.fallbackVersion else v
        | none => env.fallbackVersion
      let compilerCheck : SimpleCheck :=
        if securityAnalysis.compilerVersion = some expectedCompilerVersion then
          ⟨true, "Compiler version matches (" ++
            renderOptStr securityAnalysis.compilerVersion ++ ")"⟩
        else
          ⟨false, "Compiler version mismatch: deployed " ++
            renderOptStr securityAnalysis.compilerVersion ++ ", expected " ++
            expectedCompilerVersion⟩
      assembleChecksResult contractAddress networkChainId functionalityCheck
        securityAnalysis compilerCheck

/-- The flattened report object of `generateReport`. -/
structure Report where
  title : String
  contract : String
  networkChainId : String
  status : String
  summary : Summary
  details : Checks
deriving Repr, DecidableEq

/-- Embeds `VerificationManager.generateReport`. -/
def generateReport (r : VerificationResult) : Report :=
  { title := "Smart Contract Verification Report"
    contract := r.contractAddress
    networkChainId := r.networkChainId
    status := if r.success then "PASSED" else "FAILED"
    summary := r.summary
    details := r.checks }

/-- Truthiness of `checks[key]?.passed` for a key whose `passed` field is
boolean: the optional chaining yields `undefined` (falsy) for an absent
key. -/
def optPassed (o : Option SimpleCheck) : Bool :=
  match o with
  | some c => c.passed
  | none => false

/-- The `passed` values of every entry present in the checks map, boolean
ones injected into `JsVal`. -/
def checksPassedVals (c : Checks) : List JsVal :=
  (c.existence.toList.map fun k => JsVal.jbool k.passed) ++
    (c.functionality.toList.map fun k => JsVal.jbool k.passed) ++
    (c.bytecode.toList.map fun k => k.passed) ++
    (c.compiler.toList.map fun k => JsVal.jbool k.passed) ++
    (c.errorCheck.toList.map fun k => JsVal.jbool k.passed)

/-- Number of entries of the checks map whose `passed` field is truthy. -/
def truthyPassedCount (c : Checks) : Nat :=
  ((checksPassedVals c).filter jsTruthy).length

/-- Number of entries of the checks map whose `passed` field is not truthy. -/
def falsyPassedCount (c : Checks) : Nat :=
  ((checksPassedVals c).filter (fun v => !jsTruthy v)).length

/-- The entries of the checks map other than the bytecode entry (their
`passed` fields are genuine booleans). -/
def simpleChecksList (c : Checks) : List SimpleCheck :=
  c.existence.toList ++ c.functionality.toList ++ c.compiler.toList ++ c.errorCheck.toList

/-- Contribution of the bytecode entry to `summary.passed`: it is tallied by
`hasMetadata`, not by its recorded `passed` field. -/
def bytecodeMetaTally (c : Checks) : Nat :=
  match c.bytecode with
  | some b => if b.details.hasMetadata then 1 else 0
  | none => 0

/-- Contribution of the bytecode entry to `summary.failed`. -/
def bytecodeNoMetaTally (c : Checks) : Nat :=
  match c.bytecode with
  | some b => if b.details.hasMetadata then 0 else 1
  | none => 0

end VerificationManager

namespace ContractVerifier

/-- JSON response of a verification submission (`submitVerification`): fields
`status`, `result` and `message` as used by `ContractVerifier.verifyContract`. -/
structure SubmitResponse where
  status : String
  result : String
  message : String
deriving Repr, DecidableEq

/-- The `maxRetries` constant of the submission loop. -/
def maxRetries : Nat := 3

/-- Is this response the "contract not yet indexed" rejection that triggers a
retry: `response.status === '0' && response.result &&
response.result.includes('Unable to locate ContractCode')`? -/
def isRetryableResp (r : SubmitResponse) : Bool :=
  r.status == "0" && r.result != "" && strIncludes r.result "Unable to locate ContractCode"

/-- Observable outcome of the submission loop: the response the loop exits
with, the number of submissions performed, and the number of 10-second
backoff delays taken. -/
structure SubmitOutcome where
  response : SubmitResponse
  submissions : Nat
  delays : Nat
deriving Repr, DecidableEq

/-- The `while (retryCount < maxRetries)` submission loop, with the stream of
explorer responses as explicit input (`responses i` is the answer to the
`i`-th submission).  `fuel` maintains `fuel = maxRetries - retryCount`; the
`fuel = 0` case (loop condition false) is unreachable from `submitPhase`
because the loop always breaks once `retryCount + 1` reaches `maxRetries`. -/
def submitGo (responses : Nat → SubmitResponse) : Nat → Nat → Nat → Nat → SubmitOutcome
  | 0, _, idx, delays => ⟨responses idx, idx, delays⟩
  | fuel + 1, retryCount, idx, delays =>
    let response := responses idx
    if isRetryableResp response then
      if retryCount + 1 < maxRetries then
        submitGo responses fuel (retryCount + 1) (idx + 1) (delays + 1)
      else ⟨response, idx + 1, delays⟩
    else ⟨response, idx + 1, delays⟩

/-- The submission loop as entered by `ContractVerifier.verifyContract`:
`retryCount` starts at 0. -/
def submitPhase (responses : Nat → SubmitResponse) : SubmitOutcome :=
  submitGo responses maxRetries 0 0 0

/-- State reached after the submission loop: `pending guid` when the final
response has status "1" (the orchestrator then starts polling that GUID);
`failed` otherwise, recording the response's `message` and `result` that the
source logs before returning `false`. -/
inductive SubmitPhaseResult where
  | pending (guid : String)
  | failed (message result : String)
deriving Repr, DecidableEq

/-- Outcome of the submission phase of `ContractVerifier.verifyContract`. -/
def submissionOutcome (responses : Nat → SubmitResponse) : SubmitPhaseResult :=
  let o := submitPhase responses
  if o.response.status = "1" then .pending o.response.result
  else .failed o.response.message o.response.result

/-- JSON response of one status poll (`checkverifystatus`). -/
structure StatusResponse where
  status : String
  result : String
deriving Repr, DecidableEq

/-- Terminal report of the polling loop, distinguishing the three console
reports of `checkVerificationStatus`: the success line (returning `true`),
the failure line quoting the explorer's result (returning `false`), and the
timeout line instructing a manual check (also returning `false`). -/
inductive PollOutcome where
  | verified
  | failed (result : String)
  | timedOut
deriving Repr, DecidableEq

/-- Observable outcome of `checkVerificationStatus`: how many polls were
performed, which terminal report was taken, and the boolean returned. -/
structure PollResult where
  polls : Nat
  outcome : PollOutcome
  returnValue : Bool
deriving Repr, DecidableEq

/-- The poll budget: `for (let i = 0; i < 10; i++)`. -/
def pollBudget : Nat := 10

/-- The polling loop body, with the stream of status responses as explicit
input (`responses i` answers the `i`-th poll); recursion on the remaining
budget. -/
def pollGo (responses : Nat → StatusResponse) (i : Nat) : Nat → PollResult
  | 0 => ⟨i, .timedOut, false⟩
  | budget + 1 =>
    let statusData := responses i
    if statusData.status = "1" then ⟨i + 1, .verified, true⟩
    else if statusData.result = "Pending in queue" then pollGo responses (i + 1) budget
    else ⟨i + 1, .failed statusData.result, false⟩

/-- Embeds `ContractVerifier.checkVerificationStatus`. -/
def checkVerificationStatus (responses : Nat → StatusResponse) : PollResult :=
  pollGo responses 0 pollBudget

/-- Big-endian byte rendering of a natural number in a fixed width. -/
def beBytes : Nat → Nat → List Nat
  | 0, _ => []
  | w + 1, n => beBytes w (n / 256) ++ [n % 256]

/-- A 32-byte ABI word. -/
def abiWord (n : Nat) : List Nat := beBytes 32 n

/-- Right-pad a byte list with zeros to a multiple of 32. -/
def padRight32 (bs : List Nat) : List Nat :=
  bs ++ List.replicate ((32 - bs.length % 32) % 32) 0

/-- UTF-8 encoding of one character. -/
def utf8EncodeCh (c : Char) : List Nat :=
  let n := c.toNat
  if n < 128 then [n]
  else if n < 2048 then [192 + n / 64, 128 + n % 64]
  else if n < 65536 then [224 + n / 4096, 128 + n / 64 % 64, 128 + n % 64]
  else [240 + n / 262144, 128 + n / 4096 % 64, 128 + n / 64 % 64, 128 + n % 64]

/-- UTF-8 bytes of a string. -/
def utf8Bytes (s : String) : List Nat :=
  s.data.foldr (fun c acc => utf8EncodeCh c ++ acc) []

/-- ABI tail encoding of a dynamic `string`: length word followed by the
right-padded UTF-8 data. -/
def abiStringTail (s : String) : List Nat :=
  abiWord (utf8Bytes s).length ++ padRight32 (utf8Bytes s)

/-- ABI encoding of the Token constructor argument tuple
`(string name, string symbol, uint8 decimals, uint256 totalSupply)`:
four head words (two tail offsets and the two numeric values) followed by
the two string tails.  This is `ethers.AbiCoder.defaultAbiCoder().encode`
specialised to the fixed type list used by `encodeConstructorArgs`. -/
def encodeCtorTuple (name symbol : String) (decimals totalSupply : Nat) : List Nat :=
  let t1 := abiStringTail name
  let t2 := abiStringTail symbol
  abiWord 128 ++ abiWord (128 + t1.length) ++ abiWord decimals ++ abiWord totalSupply ++
    t1 ++ t2

/-- Lowercase hex rendering of one byte. -/
def byteToHex (b : Nat) : List Char :=
  let hexDigit := fun (n : Nat) => if n < 10 then Char.ofNat (48 + n) else Char.ofNat (87 + n)
  [hexDigit (b / 16), hexDigit (b % 16)]

/-- Lowercase hex string of a byte list. -/
def bytesToHex (bs : List Nat) : String :=
  ⟨bs.foldr (fun b acc => byteToHex b ++ acc) []⟩

/-- Embeds `ContractVerifier.encodeConstructorArgs`: the total supply is
scaled by `ethers.parseUnits(totalSupply.toString(), decimals)` (which is
`totalSupply * 10 ^ decimals` for a nonnegative integer), the tuple is ABI
encoded, and the `0x` prefix is sliced off.  An encoding failure (a value
out of range for its ABI type, which `ethers` rejects by throwing) is caught
and degrades to the empty string. -/
def encodeConstructorArgs (tokenConfig : VerificationManager.TokenConfig) : String :=
  let scaledSupply := tokenConfig.totalSupply * 10 ^ tokenConfig.decimals
  if tokenConfig.decimals < 2 ^ 8 ∧ scaledSupply < 2 ^ 256 then
    bytesToHex (encodeCtorTuple tokenConfig.name tokenConfig.symbol
      tokenConfig.decimals scaledSupply)
  else ""

/-- Value of a big-endian byte list. -/
def beVal (bs : List Nat) : Nat :=
  bs.foldl (fun a b => a * 256 + b) 0

/-- ASCII-only UTF-8 decoding of a byte list (sufficient for the claims'
concrete values). -/
def utf8DecodeAscii (bs : List Nat) : Option String :=
  if bs.all (· < 128) then some ⟨bs.map Char.ofNat⟩ else none

/-- Read the dynamic `string` whose tail starts at byte offset `off` of the
ABI blob. -/
def abiReadString (blob : List Nat) (off : Nat) : Option String :=
  let lenWord := (blob.drop off).take 32
  if lenWord.length = 32 then
    let len := beVal lenWord
    let data := (blob.drop (off + 32)).take len
    if data.length = len then utf8DecodeAscii data else none
  else none

/-- Modelled from the spec: ABI-decode a hex string against the type list
`(string, string, uint8, uint256)` (the round-trip direction of the
constructor-argument property; the repository itself only encodes). -/
def abiDecodeCtor (hexStr : String) : Option (String × String × Nat × Nat) :=
  let blob := bufferFromHex hexStr.data
  if 2 * blob.length = hexStr.data.length then
    let w0 := blob.take 32
    let w1 := (blob.drop 32).take 32
    let w2 := (blob.drop 64).take 32
    let w3 := (blob.drop 96).take 32
    if w3.length = 32 then
      match abiReadString blob (beVal w0), abiReadString blob (beVal w1) with
      | some name, some symbol =>
        if beVal w2 < 2 ^ 8 then some (name, symbol, beVal w2, beVal w3) else none
      | _, _ => none
    else none
  else none

end ContractVerifier

section HelperLemmas

/-- Hex decoding consumes two characters per byte, so the byte count is
bounded by half the character count. -/
theorem bufferFromHex_two_mul_length_le :
    ∀ l : List Char, 2 * (bufferFromHex l).length ≤ l.length
  | [] => by simp [bufferFromHex]
  | [c] => by simp [bufferFromHex]
  | c1 :: c2 :: rest => by
    have ih := bufferFromHex_two_mul_length_le rest
    simp only [bufferFromHex]
    cases hexVal c1 <;> cases hexVal c2
    all_goals simp
    all_goals omega

/-- A bytecode string shorter than four characters has metadata section
length zero. -/
theorem getMetadataSectionLength_eq_zero_of_short (s : String)
    (h : s.data.length < 4) : VerificationManager.getMetadataSectionLength s = 0 := by
  unfold VerificationManager.getMetadataSectionLength
  have hd : s.data.drop (s.data.length - 4) = s.data := by
    have h0 : s.data.length - 4 = 0 := by omega
    rw [h0, List.drop_zero]
  simp only [hd]
  have hlen := bufferFromHex_two_mul_length_le s.data
  rcases hb : bufferFromHex s.data with _ | ⟨x, _ | ⟨y, t⟩⟩
  · rfl
  · rfl
  · exfalso
    rw [hb] at hlen
    simp only [List.length_cons] at hlen
    omega

/-- A character of the decoded-to-lowercase image of a valid `Char.ofNat`
argument keeps its numeric value. -/
theorem charOfNat_toNat (n : Nat) (h : n < 55296) : (Char.ofNat n).toNat = n := by
  have hv : n.isValidChar := Or.inl h
  simp only [Char.ofNat, dif_pos hv, Char.ofNatAux, Char.toNat]
  simp [UInt32.toNat]

/-- Lowercasing a hexadecimal character never yields `'s'`. -/
theorem jsLowerChar_ne_s (c : Char) (h : isHexChar c = true) : jsLowerChar c ≠ 's' := by
  unfold isHexChar at h
  rw [decide_eq_true_eq] at h
  unfold jsLowerChar
  split
  · rename_i hAZ
    intro heq
    have hval := congrArg Char.toNat heq
    rw [charOfNat_toNat (c.toNat + 32) (by omega)] at hval
    have hs : Char.toNat 's' = 115 := rfl
    rw [hs] at hval
    omega
  · intro heq
    have hval := congrArg Char.toNat heq
    have hs : Char.toNat 's' = 115 := rfl
    rw [hs] at hval
    omega

/-- Membership transport along `List.isPrefixOf`. -/
theorem isPrefixOf_mem : ∀ {p l : List Char}, p.isPrefixOf l = true →
    ∀ c ∈ p, c ∈ l
  | [], _, _, c, hc => absurd hc (List.not_mem_nil c)
  | a :: p', b :: l', h, c, hc => by
    simp only [List.isPrefixOf, Bool.and_eq_true, beq_iff_eq] at h
    rcases List.mem_cons.mp hc with rfl | hc'
    · exact h.1 ▸ List.mem_cons_self c l'
    · exact List.mem_cons_of_mem b (isPrefixOf_mem h.2 c hc')

/-- Membership transport along the substring scan. -/
theorem strIncludesAux_mem : ∀ {hay pat : List Char},
    strIncludesAux hay pat = true → ∀ c ∈ pat, c ∈ hay
  | [], pat, h, c, hc => by
    simp only [strIncludesAux, List.isEmpty_iff] at h
    subst h
    exact absurd hc (List.not_mem_nil c)
  | a :: t, pat, h, c, hc => by
    simp only [strIncludesAux, Bool.or_eq_true] at h
    rcases h with h | h
    · exact isPrefixOf_mem h c hc
    · exact List.mem_cons_of_mem a (strIncludesAux_mem h c hc)

/-- A substring containing `'s'` cannot occur in the lowercased image of an
all-hex string. -/
theorem strIncludes_lower_eq_false (s pat : String)
    (hhex : ∀ c ∈ s.data, isHexChar c = true) (hpat : 's' ∈ pat.data) :
    strIncludes (jsToLower s) pat = false := by
  cases hI : strIncludes (jsToLower s) pat
  · rfl
  · exfalso
    have hmem : 's' ∈ (jsToLower s).data := strIncludesAux_mem hI 's' hpat
    simp only [jsToLower, List.mem_map] at hmem
    obtain ⟨a, ha, heq⟩ := hmem
    exact jsLowerChar_ne_s a (hhex a ha) heq

/-- Unfolding equation for `extractMetadata`. -/
theorem extractMetadata_eq (s : String) :
    VerificationManager.extractMetadata s =
      if VerificationManager.getMetadataSectionLength s = 0 then none
      else cborDecodeFirst (((bufferFromHex s.data).take ((bufferFromHex s.data).length - 2)).drop
        ((bufferFromHex s.data).length - VerificationManager.getMetadataSectionLength s)) := rfl

end HelperLemmas

/-- Claim C1, counterexample.  The bytecode `"a0ffff"` has trailing length
field `L = 0xffff`, so `L + 2 = 65537` exceeds its own 3-byte length; the
source performs no such bound check, the clamped trailer payload `[0xa0]`
CBOR-decodes to an empty map, and `extractMetadata` reports metadata present
rather than absent. -/
theorem c1_oversized_trailer_counterexample :
    VerificationManager.getMetadataSectionLength "a0ffff" = 65535 + 2 ∧
    (bufferFromHex "a0ffff".data).length = 3 ∧
    VerificationManager.extractMetadata "a0ffff" = some (CBOR.map []) :=
  ⟨rfl, rfl, rfl⟩

/-- Claim C1, amended.  When the trailing length field plus 2 exceeds the
bytecode's byte length, `extractMetadata` does not bound-check: the negative
slice indices clamp at the start of the buffer, and the result is the CBOR
decode of all bytes up to the length field — metadata is reported absent
exactly when that clamped payload fails to decode, and no error is ever
raised (the function is total). -/
theorem c1_oversized_trailer_decodes_clamped_payload (s : String)
    (h1 : VerificationManager.getMetadataSectionLength s ≠ 0)
    (h2 : (bufferFromHex s.data).length < VerificationManager.getMetadataSectionLength s) :
    VerificationManager.extractMetadata s =
      cborDecodeFirst ((bufferFromHex s.data).take ((bufferFromHex s.data).length - 2)) := by
  rw [extractMetadata_eq, if_neg h1]
  have hz : (bufferFromHex s.data).length - VerificationManager.getMetadataSectionLength s = 0 :=
    Nat.sub_eq_zero_of_le (Nat.le_of_lt h2)
  rw [hz, List.drop_zero]

/-- Witness for the amended C1 at the counterexample input. -/
theorem c1_oversized_trailer_decodes_clamped_payload_witness :
    VerificationManager.getMetadataSectionLength "a0ffff" ≠ 0 ∧
    (bufferFromHex "a0ffff".data).length < VerificationManager.getMetadataSectionLength "a0ffff" ∧
    VerificationManager.extractMetadata "a0ffff" =
      cborDecodeFirst ((bufferFromHex "a0ffff".data).take ((bufferFromHex "a0ffff".data).length - 2)) :=
  ⟨by decide, by decide,
    c1_oversized_trailer_decodes_clamped_payload "a0ffff" (by decide) (by decide)⟩

/-- Claim C4.  Metadata extraction is total (never throws): every bytecode
string shorter than four characters yields the no-metadata result, and any
bytecode whose trailer payload fails to CBOR-decode yields the no-metadata
result rather than an error. -/
theorem c4_extractMetadata_never_throws :
    (∀ s : String, s.data.length < 4 → VerificationManager.extractMetadata s = none) ∧
    (∀ s : String,
      cborDecodeFirst (((bufferFromHex s.data).take ((bufferFromHex s.data).length - 2)).drop
        ((bufferFromHex s.data).length - VerificationManager.getMetadataSectionLength s)) = none →
      VerificationManager.extractMetadata s = none) := by
  constructor
  · intro s h
    rw [extractMetadata_eq, getMetadataSectionLength_eq_zero_of_short s h]
    simp
  · intro s h
    rw [extractMetadata_eq]
    split
    · rfl
    · exact h

/-- Witness for C4: a two-character bytecode and a bytecode whose clamped
trailer payload `[0xff]` is malformed CBOR. -/
theorem c4_extractMetadata_never_throws_witness :
    "ab".data.length < 4 ∧ VerificationManager.extractMetadata "ab" = none ∧
    VerificationManager.extractMetadata "00ff0001" = none :=
  ⟨by decide, c4_extractMetadata_never_throws.1 "ab" (by decide),
    c4_extractMetadata_never_throws.2 "00ff0001" rfl⟩

/-- Claim C5.  A valid CBOR trailer binding `solc` to the 3-byte string
`[0, 8, 20]` yields compiler version `"0.8.20"`; and whenever the decoded
metadata's `solc` entry is not a 3-byte Buffer, the compiler version is
reported unknown (`none`) even though metadata is present. -/
theorem c5_inferCompilerVersion :
    VerificationManager.inferCompilerVersion "60806040a164736f6c6343000814000a" = some "0.8.20" ∧
    (∀ (s : String) (m : CBOR), VerificationManager.extractMetadata s = some m →
      (∀ bs : List Nat, jsGet m "solc" = some (CBOR.bytes bs) → bs.length ≠ 3) →
      VerificationManager.inferCompilerVersion s = none) := by
  constructor
  · rfl
  · intro s m hm hsolc
    unfold VerificationManager.inferCompilerVersion
    rw [hm]
    cases htr : cborTruthy m
    · simp [htr]
    · simp only [htr, Bool.not_true, if_false]
      cases hg : jsGet m "solc" with
      | none => rfl
      | some v =>
        cases htv : cborTruthy v
        · simp [htv]
        · simp only [htv, Bool.not_true, if_false]
          cases v with
          | bytes bs =>
            have hne := hsolc bs hg
            rcases bs with _ | ⟨a, _ | ⟨b, _ | ⟨c, _ | ⟨d, t⟩⟩⟩⟩ <;> first
              | rfl
              | (exfalso; exact hne rfl)
          | int n => rfl
          | text t => rfl
          | arr xs => rfl
          | map kvs => rfl
          | bool b => rfl
          | nullV => rfl
          | undef => rfl

/-- Witness for C5 at the concrete trailer inputs: the `"0.8.20"` bytecode
and a bytecode whose metadata is an empty map (no `solc` entry at all). -/
theorem c5_inferCompilerVersion_witness :
    VerificationManager.inferCompilerVersion "60806040a164736f6c6343000814000a" = some "0.8.20" ∧
    VerificationManager.extractMetadata "a00001" = some (CBOR.map []) ∧
    VerificationManager.inferCompilerVersion "a00001" = none :=
  ⟨c5_inferCompilerVersion.1, rfl,
    c5_inferCompilerVersion.2 "a00001" (CBOR.map []) rfl
      (fun bs h => by simp [jsGet] at h)⟩

/-- Claim C10.  For a bytecode consisting only of hexadecimal characters the
self-destruct heuristic never fires: both scanned substrings contain the
letter `'s'`, which no lowercased hex character can be, so
`hasSelfDestruct` is false and the self-destruct warning is never emitted. -/
theorem c10_selfdestruct_heuristic_vacuous (s : String)
    (hhex : ∀ c ∈ s.data, isHexChar c = true) :
    (VerificationManager.analyzeContractSecurity s).hasSelfDestruct = false ∧
    VerificationManager.selfDestructWarning ∉
      (VerificationManager.analyzeContractSecurity s).warnings := by
  have h1 : strIncludes (jsToLower s) "selfdestruct" = false :=
    strIncludes_lower_eq_false s "selfdestruct" hhex (by decide)
  have h2 : strIncludes (jsToLower s) "suicide" = false :=
    strIncludes_lower_eq_false s "suicide" hhex (by decide)
  constructor
  · simp [VerificationManager.analyzeContractSecurity, h1, h2]
  · have hw : (VerificationManager.analyzeContractSecurity s).warnings =
        (if s.data.length > 49152 then [VerificationManager.sizeWarning] else []) := by
      simp [VerificationManager.analyzeContractSecurity, h1, h2]
    rw [hw]
    split
    · simp [VerificationManager.selfDestructWarning, VerificationManager.sizeWarning]
    · simp

/-- Witness for C10 on a concrete all-hex bytecode containing `ff`. -/
theorem c10_selfdestruct_heuristic_vacuous_witness :
    (∀ c ∈ ("60806040ff" : String).data, isHexChar c = true) ∧
    (VerificationManager.analyzeContractSecurity "60806040ff").hasSelfDestruct = false ∧
    VerificationManager.selfDestructWarning ∉
      (VerificationManager.analyzeContractSecurity "60806040ff").warnings :=
  ⟨by decide, (c10_selfdestruct_heuristic_vacuous "60806040ff" (by decide)).1,
    (c10_selfdestruct_heuristic_vacuous "60806040ff" (by decide)).2⟩

/-- Claim C7.  A throw from any of the four token read calls is caught:
the check returns `responsive = false` with the thrown message as its error
field (non-empty whenever the thrown message is), never a propagated
exception (the function is total).  When all four calls succeed and every
actual value equals the expected configuration value, `allMatch` is true —
both in general and at the spec's concrete token configuration. -/
theorem c7_functionality_check (e : String) (cfg : VerificationManager.TokenConfig)
    (r : VerificationManager.TokenReads) (t : VerificationManager.TokenChecks)
    (hfields : (VerificationManager.verifyContractFunctionality (.ok r) cfg).fields = some t)
    (hname : t.nameCmp.actual = t.nameCmp.expected)
    (hsymbol : t.symbolCmp.actual = t.symbolCmp.expected)
    (hdec : t.decimalsCmp.actual = t.decimalsCmp.expected)
    (hts : t.totalSupplyCmp.actual = some (t.totalSupplyCmp.expected : ℚ)) :
    ((VerificationManager.verifyContractFunctionality (.error e) cfg).responsive = false ∧
      (VerificationManager.verifyContractFunctionality (.error e) cfg).error = some e ∧
      (e ≠ "" → ∀ msg, (VerificationManager.verifyContractFunctionality (.error e) cfg).error =
        some msg → msg ≠ "")) ∧
    t.allMatch = true ∧
    (VerificationManager.verifyContractFunctionality
      (.ok ⟨"MyToken", "MYT", 18, 1000000000 * 10 ^ 18⟩)
      ⟨"MyToken", "MYT", 18, 1000000000⟩).fields.map
        VerificationManager.TokenChecks.allMatch = some true := by
  refine ⟨⟨rfl, rfl, ?_⟩, ?_, by decide⟩
  · intro he msg hmsg
    simp only [VerificationManager.verifyContractFunctionality, Option.some.injEq] at hmsg
    exact hmsg ▸ he
  · simp only [VerificationManager.verifyContractFunctionality, Option.some.injEq] at hfields
    subst hfields
    simp only at hname hsymbol hdec hts
    rw [hdec] at hts
    simp [hname, hsymbol, hdec, hts]

/-- Witness for C7 at concrete inputs: a throwing `decimals()` call with a
non-empty revert message, and the spec's concrete matching token reads. -/
theorem c7_functionality_check_witness :
    (VerificationManager.verifyContractFunctionality
      (.error "execution reverted") ⟨"MyToken", "MYT", 18, 1000000000⟩).responsive = false ∧
    (VerificationManager.verifyContractFunctionality
      (.error "execution reverted") ⟨"MyToken", "MYT", 18, 1000000000⟩).error =
      some "execution reverted" ∧
    (⟨⟨"MyToken", "MyToken", true⟩, ⟨"MYT", "MYT", true⟩, ⟨18, 18, true⟩,
      ⟨some 1000000000, 1000000000, true⟩, true⟩ :
        VerificationManager.TokenChecks).allMatch = true := by
  have h := c7_functionality_check "execution reverted" ⟨"MyToken", "MYT", 18, 1000000000⟩
    ⟨"MyToken", "MYT", 18, 1000000000 * 10 ^ 18⟩
    ⟨⟨"MyToken", "MyToken", true⟩, ⟨"MYT", "MYT", true⟩, ⟨18, 18, true⟩,
      ⟨some 1000000000, 1000000000, true⟩, true⟩
    (by decide) (by decide) (by decide) (by decide) (by decide)
  exact ⟨h.1.1, h.1.2.1, h.2.1⟩

/-- Summary/tally relationship of the assembled full-sequence result, for
arbitrary functionality check, security analysis and compiler check. -/
theorem assembleChecksResult_summary_tally (a b : String)
    (F : VerificationManager.SimpleCheck) (sa : VerificationManager.SecurityAnalysis)
    (C : VerificationManager.SimpleCheck) :
    (VerificationManager.assembleChecksResult a b F sa C).summary.passed =
      ((VerificationManager.simpleChecksList
        (VerificationManager.assembleChecksResult a b F sa C).checks).filter
          (fun k => k.passed)).length +
        VerificationManager.bytecodeMetaTally
          (VerificationManager.assembleChecksResult a b F sa C).checks ∧
    (VerificationManager.assembleChecksResult a b F sa C).summary.failed =
      ((VerificationManager.simpleChecksList
        (VerificationManager.assembleChecksResult a b F sa C).checks).filter
          (fun k => !k.passed)).length +
        VerificationManager.bytecodeNoMetaTally
          (VerificationManager.assembleChecksResult a b F sa C).checks := by
  obtain ⟨fp, fm⟩ := F
  obtain ⟨cp, cm⟩ := C
  cases fp <;> cases cp <;> cases hm : sa.hasMetadata <;>
    simp [VerificationManager.assembleChecksResult, VerificationManager.simpleChecksList,
      VerificationManager.bytecodeMetaTally, VerificationManager.bytecodeNoMetaTally,
      VerificationManager.existenceCheck, hm]

/-- The report status renders exactly the success flag. -/
theorem generateReport_status_iff (r : VerificationManager.VerificationResult) :
    (VerificationManager.generateReport r).status = "PASSED" ↔ r.success = true := by
  cases hs : r.success <;> simp [VerificationManager.generateReport, hs]

/-- Claim C8.  On every run that completes the check sequence (code was
fetched and is non-empty), the overall verdict is determined solely by the
two critical checks: `success` equals the conjunction of the truthiness of
the existence and functionality entries (whatever the bytecode and compiler
checks recorded), and the report status is PASSED exactly when `success`
holds. -/
theorem c8_verdict_from_critical_checks (env : VerificationManager.VerifyEnv)
    (addr cid : String) (token : VerificationManager.TokenConfig) (code : String)
    (h1 : env.getCode = Except.ok code) (h2 : code ≠ "0x") :
    ((VerificationManager.verifyContract env addr cid token).success =
      (VerificationManager.optPassed
        (VerificationManager.verifyContract env addr cid token).checks.existence &&
       VerificationManager.optPassed
        (VerificationManager.verifyContract env addr cid token).checks.functionality)) ∧
    ((VerificationManager.generateReport
        (VerificationManager.verifyContract env addr cid token)).status = "PASSED" ↔
      (VerificationManager.verifyContract env addr cid token).success = true) := by
  refine ⟨?_, generateReport_status_iff _⟩
  obtain ⟨g, tc, cvi, fv⟩ := env
  simp only at h1
  subst h1
  simp [VerificationManager.verifyContract, h2, VerificationManager.assembleChecksResult,
    VerificationManager.optPassed, VerificationManager.existenceCheck]

/-- Witness for C8 at a concrete completing run. -/
theorem c8_verdict_from_critical_checks_witness :
    ((VerificationManager.verifyContract
        ⟨Except.ok "0x60806040", Except.error "boom", some "0.8.20", "0.8.20"⟩
        "0xC" "137" ⟨"MyToken", "MYT", 18, 1000000000⟩).success =
      (VerificationManager.optPassed
        (VerificationManager.verifyContract
          ⟨Except.ok "0x60806040", Except.error "boom", some "0.8.20", "0.8.20"⟩
          "0xC" "137" ⟨"MyToken", "MYT", 18, 1000000000⟩).checks.existence &&
       VerificationManager.optPassed
        (VerificationManager.verifyContract
          ⟨Except.ok "0x60806040", Except.error "boom", some "0.8.20", "0.8.20"⟩
          "0xC" "137" ⟨"MyToken", "MYT", 18, 1000000000⟩).checks.functionality)) ∧
    ("0x60806040" : String) ≠ "0x" :=
  ⟨(c8_verdict_from_critical_checks
      ⟨Except.ok "0x60806040", Except.error "boom", some "0.8.20", "0.8.20"⟩
      "0xC" "137" ⟨"MyToken", "MYT", 18, 1000000000⟩ "0x60806040" rfl (by decide)).1,
    by decide⟩

/-- Claim C9, counterexample.  A deployed bytecode whose metadata decodes
(an empty CBOR map) but yields no compiler version makes the bytecode
entry's `passed` field `null` while the summary still counts it as passed:
`summary.passed` is 2 but only 1 entry of the checks map has a truthy
`passed` field. -/
theorem c9_summary_tally_counterexample :
    (VerificationManager.verifyContract
        ⟨Except.ok "0xa00001", Except.error "boom", some "0.8.20", "0.8.20"⟩
        "0xC" "137" ⟨"MyToken", "MYT", 18, 1000000000⟩).summary.passed = 2 ∧
    VerificationManager.truthyPassedCount
      (VerificationManager.verifyContract
        ⟨Except.ok "0xa00001", Except.error "boom", some "0.8.20", "0.8.20"⟩
        "0xC" "137" ⟨"MyToken", "MYT", 18, 1000000000⟩).checks = 1 := by
  constructor <;> decide

/-- Claim C9, amended.  The summary tallies are consistent with the checks
map for every entry except the bytecode entry, which is tallied by whether
metadata was found (its `details.hasMetadata`), not by its recorded
`passed` field: `summary.passed` is the number of non-bytecode entries with
a true `passed` plus one when the bytecode entry is present with metadata,
and `summary.failed` the complementary count.  (The two agree except when
metadata is present but the compiler version is unknown, as in the
counterexample.) -/
theorem c9_summary_tally_amended (env : VerificationManager.VerifyEnv)
    (addr cid : String) (token : VerificationManager.TokenConfig) :
    (VerificationManager.verifyContract env addr cid token).summary.passed =
      ((VerificationManager.simpleChecksList
        (VerificationManager.verifyContract env addr cid token).checks).filter
          (fun k => k.passed)).length +
        VerificationManager.bytecodeMetaTally
          (VerificationManager.verifyContract env addr cid token).checks ∧
    (VerificationManager.verifyContract env addr cid token).summary.failed =
      ((VerificationManager.simpleChecksList
        (VerificationManager.verifyContract env addr cid token).checks).filter
          (fun k => !k.passed)).length +
        VerificationManager.bytecodeNoMetaTally
          (VerificationManager.verifyContract env addr cid token).checks := by
  obtain ⟨g, tc, cvi, fv⟩ := env
  cases g with
  | error msg =>
    simp [VerificationManager.verifyContract, VerificationManager.simpleChecksList,
      VerificationManager.bytecodeMetaTally, VerificationManager.bytecodeNoMetaTally]
  | ok code =>
    by_cases hc : code = "0x"
    · simp [VerificationManager.verifyContract, hc, VerificationManager.simpleChecksList,
        VerificationManager.bytecodeMetaTally, VerificationManager.bytecodeNoMetaTally]
    · simp only [VerificationManager.verifyContract, if_neg hc]
      exact assembleChecksResult_summary_tally _ _ _ _ _

/-- One retryable step of the submission loop when the retry budget allows
another attempt. -/
theorem submitGo_retry_step (f : Nat → ContractVerifier.SubmitResponse)
    (fuel retryCount idx delays : Nat)
    (h : ContractVerifier.isRetryableResp (f idx) = true)
    (hlt : retryCount + 1 < ContractVerifier.maxRetries) :
    ContractVerifier.submitGo f (fuel + 1) retryCount idx delays =
      ContractVerifier.submitGo f fuel (retryCount + 1) (idx + 1) (delays + 1) := by
  simp [ContractVerifier.submitGo, h, hlt]

/-- A retryable response with the retry budget exhausted breaks out of the
loop without a further delay. -/
theorem submitGo_retry_break (f : Nat → ContractVerifier.SubmitResponse)
    (fuel retryCount idx delays : Nat)
    (h : ContractVerifier.isRetryableResp (f idx) = true)
    (hge : ¬ retryCount + 1 < ContractVerifier.maxRetries) :
    ContractVerifier.submitGo f (fuel + 1) retryCount idx delays =
      ⟨f idx, idx + 1, delays⟩ := by
  simp [ContractVerifier.submitGo, h, hge]

/-- A non-retryable response breaks out of the loop immediately. -/
theorem submitGo_stop (f : Nat → ContractVerifier.SubmitResponse)
    (fuel retryCount idx delays : Nat)
    (h : ContractVerifier.isRetryableResp (f idx) = false) :
    ContractVerifier.submitGo f (fuel + 1) retryCount idx delays =
      ⟨f idx, idx + 1, delays⟩ := by
  simp [ContractVerifier.submitGo, h]

/-- The number of submissions performed by the loop is bounded by the entry
index plus the remaining retry budget. -/
theorem submitGo_submissions_le (f : Nat → ContractVerifier.SubmitResponse) :
    ∀ (fuel retryCount idx delays : Nat),
      (ContractVerifier.submitGo f fuel retryCount idx delays).submissions ≤ idx + fuel
  | 0, _, idx, _ => Nat.le_refl idx
  | fuel + 1, retryCount, idx, delays => by
    by_cases h : ContractVerifier.isRetryableResp (f idx) = true
    · by_cases hlt : retryCount + 1 < ContractVerifier.maxRetries
      · rw [submitGo_retry_step f fuel retryCount idx delays h hlt]
        have ih := submitGo_submissions_le f fuel (retryCount + 1) (idx + 1) (delays + 1)
        omega
      · rw [submitGo_retry_break f fuel retryCount idx delays h hlt]
        simp only
        omega
    · rw [submitGo_stop f fuel retryCount idx delays (Bool.eq_false_iff.mpr h)]
      simp only
      omega

/-- The "not yet indexed" rejection used throughout claim C2. -/
def notLocatedResp : ContractVerifier.SubmitResponse :=
  ⟨"0", "Unable to locate ContractCode", "NOTOK"⟩

/-- The success acknowledgement carrying GUID `abc123`. -/
def guidOkResp : ContractVerifier.SubmitResponse := ⟨"1", "abc123", "OK"⟩

/-- Claim C2.  Submission retry behaviour of `ContractVerifier.verifyContract`:
with two consecutive "Unable to locate ContractCode" rejections followed by a
success response carrying GUID "abc123", the orchestrator reaches the pending
state holding that GUID after exactly 2 backoff delays and 3 submissions; in
general at most 3 submission attempts are ever made; and exhausting the
retries on three consecutive rejections yields the failed outcome recording
the last rejection's message and result. -/
theorem c2_submission_retry :
    (∀ f : Nat → ContractVerifier.SubmitResponse,
      f 0 = notLocatedResp → f 1 = notLocatedResp → f 2 = guidOkResp →
      ContractVerifier.submissionOutcome f = .pending "abc123" ∧
      (ContractVerifier.submitPhase f).delays = 2 ∧
      (ContractVerifier.submitPhase f).submissions = 3) ∧
    (∀ f : Nat → ContractVerifier.SubmitResponse,
      (ContractVerifier.submitPhase f).submissions ≤ 3) ∧
    (∀ f : Nat → ContractVerifier.SubmitResponse,
      (∀ i, i < 3 → ContractVerifier.isRetryableResp (f i) = true) →
      ContractVerifier.submissionOutcome f = .failed (f 2).message (f 2).result ∧
      (ContractVerifier.submitPhase f).submissions = 3) := by
  refine ⟨?_, ?_, ?_⟩
  · intro f h0 h1 h2
    have hr0 : ContractVerifier.isRetryableResp (f 0) = true := by rw [h0]; decide
    have hr1 : ContractVerifier.isRetryableResp (f 1) = true := by rw [h1]; decide
    have hr2 : ContractVerifier.isRetryableResp (f 2) = false := by rw [h2]; decide
    have e1 : ContractVerifier.submitPhase f = ContractVerifier.submitGo f 2 1 1 1 := by
      rw [ContractVerifier.submitPhase]
      exact submitGo_retry_step f 2 0 0 0 hr0 (by decide)
    have e2 : ContractVerifier.submitGo f 2 1 1 1 = ContractVerifier.submitGo f 1 2 2 2 :=
      submitGo_retry_step f 1 1 1 1 hr1 (by decide)
    have e3 : ContractVerifier.submitGo f 1 2 2 2 = ⟨f 2, 3, 2⟩ :=
      submitGo_stop f 0 2 2 2 hr2
    have ephase : ContractVerifier.submitPhase f = ⟨f 2, 3, 2⟩ := by
      rw [e1, e2, e3]
    refine ⟨?_, by rw [ephase], by rw [ephase]⟩
    rw [ContractVerifier.submissionOutcome]
    rw [ephase, h2]
    decide
  · intro f
    have h := submitGo_submissions_le f 3 0 0 0
    simpa [ContractVerifier.submitPhase, ContractVerifier.maxRetries] using h
  · intro f hall
    have hr0 := hall 0 (by omega)
    have hr1 := hall 1 (by omega)
    have hr2 := hall 2 (by omega)
    have e1 : ContractVerifier.submitPhase f = ContractVerifier.submitGo f 2 1 1 1 := by
      rw [ContractVerifier.submitPhase]
      exact submitGo_retry_step f 2 0 0 0 hr0 (by decide)
    have e2 : ContractVerifier.submitGo f 2 1 1 1 = ContractVerifier.submitGo f 1 2 2 2 :=
      submitGo_retry_step f 1 1 1 1 hr1 (by decide)
    have e3 : ContractVerifier.submitGo f 1 2 2 2 = ⟨f 2, 3, 2⟩ :=
      submitGo_retry_break f 0 2 2 2 hr2 (by decide)
    have ephase : ContractVerifier.submitPhase f = ⟨f 2, 3, 2⟩ := by
      rw [e1, e2, e3]
    have hstatus : (f 2).status = "0" := by
      have h := hr2
      unfold ContractVerifier.isRetryableResp at h
      simp only [Bool.and_eq_true, beq_iff_eq] at h
      exact h.1.1
    refine ⟨?_, by rw [ephase]⟩
    rw [ContractVerifier.submissionOutcome]
    rw [ephase]
    simp [hstatus]

/-- The "not yet indexed" rejection is retryable. -/
theorem retryableNotLocated : ContractVerifier.isRetryableResp notLocatedResp = true := by
  decide

/-- Witness for C2: the concrete retry-retry-success stream and the
all-rejections stream. -/
theorem c2_submission_retry_witness :
    ContractVerifier.submissionOutcome
      (fun i => if i < 2 then notLocatedResp else guidOkResp) = .pending "abc123" ∧
    ContractVerifier.submissionOutcome (fun _ => notLocatedResp) =
      .failed "NOTOK" "Unable to locate ContractCode" :=
  ⟨(c2_submission_retry.1 (fun i => if i < 2 then notLocatedResp else guidOkResp)
      rfl rfl rfl).1,
    ((c2_submission_retry.2.2 (fun _ => notLocatedResp)
      (fun _ _ => retryableNotLocated)).1)⟩

/-- Ten consecutive pending responses drive the polling loop to the timeout
exit with the poll counter advanced by the full budget. -/
theorem pollGo_all_pending (f : Nat → ContractVerifier.StatusResponse) :
    ∀ (budget i : Nat),
      (∀ j, j < budget → (f (i + j)).status ≠ "1" ∧ (f (i + j)).result = "Pending in queue") →
      ContractVerifier.pollGo f i budget = ⟨i + budget, .timedOut, false⟩
  | 0, i, _ => by simp [ContractVerifier.pollGo]
  | budget + 1, i, hall => by
    have h0 := hall 0 (by omega)
    rw [Nat.add_zero] at h0
    have hstep : ContractVerifier.pollGo f i (budget + 1) =
        ContractVerifier.pollGo f (i + 1) budget := by
      simp [ContractVerifier.pollGo, h0.1, h0.2]
    rw [hstep]
    have ih := pollGo_all_pending f budget (i + 1) (fun j hj => by
      have := hall (j + 1) (by omega)
      rw [show i + 1 + j = i + (j + 1) by omega]
      exact this)
    rw [ih]
    have : i + 1 + budget = i + (budget + 1) := by omega
    rw [this]

/-- Claim C3.  If every poll response is still "Pending in queue" (and not a
success), `checkVerificationStatus` performs exactly 10 poll cycles and
terminates in the timed-out report — which is a distinct terminal report
from the failure report (the source prints the manual-check timeout line and
the failure line in different branches), though both return `false`. -/
theorem c3_polling_timeout (f : Nat → ContractVerifier.StatusResponse)
    (hall : ∀ i, i < 10 → (f i).status ≠ "1" ∧ (f i).result = "Pending in queue") :
    ContractVerifier.checkVerificationStatus f =
      ⟨10, ContractVerifier.PollOutcome.timedOut, false⟩ ∧
    (∀ m : String, ContractVerifier.PollOutcome.timedOut ≠ .failed m) := by
  constructor
  · have hb : ContractVerifier.pollBudget = 10 := rfl
    rw [ContractVerifier.checkVerificationStatus, hb]
    have h := pollGo_all_pending f 10 0 (fun j hj => by
      have := hall j hj
      rw [Nat.zero_add]
      exact this)
    rw [h]
  · intro m h
    cases h

/-- The status strings "0" and "1" differ. -/
theorem zeroStrNeOne : ("0" : String) ≠ "1" := by decide

/-- Witness for C3: the constant pending response stream. -/
theorem c3_polling_timeout_witness :
    ContractVerifier.checkVerificationStatus (fun _ => ⟨"0", "Pending in queue"⟩) =
      ⟨10, ContractVerifier.PollOutcome.timedOut, false⟩ :=
  (c3_polling_timeout (fun _ => ⟨"0", "Pending in queue"⟩)
    (fun _ _ => ⟨zeroStrNeOne, rfl⟩)).1

set_option maxRecDepth 4000 in
/-- Claim C6.  Encoding the constructor arguments for the type list
`(string, string, uint8, uint256)` at the token configuration
`("MyToken", "MYT", 18, 1000000000)` and ABI-decoding the resulting hex
string with the same type list reproduces the four logical values, the
fourth being the total supply scaled by the declared decimals,
`1000000000 * 10 ^ 18`. -/
theorem c6_constructor_args_round_trip :
    ContractVerifier.abiDecodeCtor
      (ContractVerifier.encodeConstructorArgs ⟨"MyToken", "MYT", 18, 1000000000⟩) =
      some ("MyToken", "MYT", 18, 1000000000 * 10 ^ 18) := by
  decide
